import Mathlib

/-!
Verification development for the simpleeval expression/statement evaluator
(src/simpleeval.py).  The Python classes `SimpleEval`, `EvalWithCompoundTypes`,
`EvalWithAssignments`, `SimpleExecutor` and `ExecutorWithControl` are embedded
shallowly: the evaluator configuration becomes a structure, the per-node
handlers become the cases of a recursive `evalExpr` function, mutable
interpreter state (the comprehension name-handler swap and the counters)
becomes explicit state passing, and Python exceptions become an `Except`
result.  Host callables are opaque to the engine, exactly as in the source:
they are represented by their identity (a name string) and their behaviour is
a parameter `ha` of evaluation.

Modeled fragment: integers, booleans, strings, lists, dicts, attribute
objects and host callables.  Floats (true division), `in`/`is` comparisons,
keyword/spread call arguments, f-strings, slices/subscripts, and the
generator/set/dict comprehension wrappers are outside the fragment; nothing
below depends on them.  Everything that is modeled is translated from the
source line by line; comments give the corresponding Python.
-/

/-! ## Module-wide constants (simpleeval.py lines 103-120) -/

def MAX_STRING_LENGTH : Nat := 100000

def MAX_COMPREHENSION_LENGTH : Nat := 10000

def MAX_POWER : Int := 4000000

def MAX_NUM_STATEMENTS : Nat := 100000

/-- DISALLOW_PREFIXES = two entries, an underscore and the func marker. -/
def DISALLOW_PREFIXES : List String := ["_", "func_"]

def DISALLOW_METHODS : List String := ["format", "format_map", "mro"]

/-- DISALLOW_FUNCTIONS holds the builtins type, isinstance, eval, getattr,
setattr, help, repr, compile, open, and (on Python 3) exec.  Python tests
membership by object identity; the model identifies a host callable by its
name string. -/
def DISALLOW_FUNCTION_IDS : List String :=
  ["type", "isinstance", "eval", "getattr", "setattr", "help", "repr",
   "compile", "open", "exec"]

/-! ## Errors

One constructor per exception class defined in simpleeval.py, plus
constructors for the bare Python exceptions the engine can leak
(`KeyError`, `TypeError`), for errors raised by host-supplied code, and a
marker for results outside the modeled value fragment. -/

inductive EvalError where
  /-- class InvalidExpression(Exception) -/
  | invalidExpression
  /-- class FunctionNotDefined(InvalidExpression) -/
  | functionNotDefined (name : String)
  /-- class NameNotDefined(InvalidExpression) -/
  | nameNotDefined (name : String)
  /-- class AttributeDoesNotExist(InvalidExpression) -/
  | attributeDoesNotExist (attr : String)
  /-- class FeatureNotAvailable(InvalidExpression) -/
  | featureNotAvailable
  /-- class NumberTooHigh(InvalidExpression) -/
  | numberTooHigh
  /-- class IterableTooLong(InvalidExpression) -/
  | iterableTooLong
  /-- class TooManyStatements(InvalidExpression) -/
  | tooManyStatements
  /-- a bare Python KeyError, as raised by a raw dict lookup; it is NOT one
  of the typed exception classes the engine defines -/
  | pythonKeyError (key : String)
  /-- a bare Python TypeError -/
  | pythonTypeError
  /-- an arbitrary error raised by host-supplied code (functions, resolvers) -/
  | hostError (tag : String)
  /-- marks an operation whose Python result lies outside the modeled value
  fragment (for example a float) -/
  | unmodeled (what : String)
  deriving DecidableEq, Repr

/-- Engine-typed errors are instances of the exception classes declared in
simpleeval.py (all subclasses of InvalidExpression).  A bare KeyError or
TypeError is not typed. -/
def EvalError.isEngineError : EvalError → Bool
  | .invalidExpression => true
  | .functionNotDefined _ => true
  | .nameNotDefined _ => true
  | .attributeDoesNotExist _ => true
  | .featureNotAvailable => true
  | .numberTooHigh => true
  | .iterableTooLong => true
  | .tooManyStatements => true
  | .pythonKeyError _ => false
  | .pythonTypeError => false
  | .hostError _ => false
  | .unmodeled _ => false

/-! ## Values -/

/-- Runtime values of the modeled fragment.  A host callable is carried by
its identity string (its behaviour is the `ha` parameter of evaluation); an
`obj` is a host object exposing attributes, a `dict` exposes items. -/
inductive Value where
  | int (n : Int)
  | bool (b : Bool)
  | str (s : String)
  | list (xs : List Value)
  | dict (m : List (String × Value))
  | obj (attrs : List (String × Value))
  | hostFn (id : String)
  | none
  deriving Repr

/-- Python truthiness of the modeled values. -/
def truthy : Value → Bool
  | .int n => n != 0
  | .bool b => b
  | .str s => s.length != 0
  | .list xs => !xs.isEmpty
  | .dict m => !m.isEmpty
  | .obj _ => true
  | .hostFn _ => true
  | .none => false

/-- Python len, for values that have a length (hasattr of the dunder len). -/
def pyLen : Value → Option Nat
  | .str s => some s.length
  | .list xs => some xs.length
  | .dict m => some m.length
  | _ => Option.none

/-- Iterating a value, as the for loops over `self._eval(node.iter)` do.
Only lists are iterable in the model. -/
def pyIter : Value → Option (List Value)
  | .list xs => some xs
  | _ => Option.none

/-- Absolute value on Int, mirroring the Python builtin abs. -/
def intAbs (a : Int) : Int := if a < 0 then -a else a

/-- Integer power with the sign handled the way Python computes a ** n for a
non-negative integer exponent.  Implemented through Nat.pow. -/
def ipow (a : Int) (n : Nat) : Int :=
  if 0 ≤ a then Int.ofNat (a.toNat ^ n)
  else if n % 2 = 0 then Int.ofNat (a.natAbs ^ n)
  else - Int.ofNat (a.natAbs ^ n)

/-! ## Safety-wrapped operator functions (simpleeval.py lines 205-232) -/

/-- Python addition on the modeled values: ints, strings and lists add;
other combinations raise TypeError. -/
def pyAdd : Value → Value → Except EvalError Value
  | .int a, .int b => .ok (.int (a + b))
  | .str a, .str b => .ok (.str (a ++ b))
  | .list a, .list b => .ok (.list (a ++ b))
  | _, _ => .error .pythonTypeError

/--
safe_add: if both operands have a length and the combined length exceeds
MAX_STRING_LENGTH, raise IterableTooLong before performing the addition.
-/
def safe_add (a b : Value) : Except EvalError Value :=
  match pyLen a, pyLen b with
  | some la, some lb =>
      if MAX_STRING_LENGTH < la + lb then .error .iterableTooLong
      else pyAdd a b
  | _, _ => pyAdd a b

def pySub : Value → Value → Except EvalError Value
  | .int a, .int b => .ok (.int (a - b))
  | _, _ => .error .pythonTypeError

/-- Python multiplication on the modeled values: ints multiply, an int and a
string or list repeat (negative counts give the empty result, as in Python). -/
def pyMult : Value → Value → Except EvalError Value
  | .int a, .int b => .ok (.int (a * b))
  | .int a, .str s => .ok (.str (String.join (List.replicate a.toNat s)))
  | .str s, .int a => .ok (.str (String.join (List.replicate a.toNat s)))
  | .int a, .list xs => .ok (.list (List.flatten (List.replicate a.toNat xs)))
  | .list xs, .int a => .ok (.list (List.flatten (List.replicate a.toNat xs)))
  | _, _ => .error .pythonTypeError

/--
safe_mult: if one operand has a length and the other, multiplied by that
length, exceeds MAX_STRING_LENGTH, raise IterableTooLong before computing
the product.  The source compares b * len(a), which needs b to be a number.
-/
def safe_mult (a b : Value) : Except EvalError Value :=
  match pyLen a, b with
  | some la, .int nb =>
      if (MAX_STRING_LENGTH : Int) < nb * (la : Int) then .error .iterableTooLong
      else
        match a, pyLen b with
        | .int na, some lb =>
            if (MAX_STRING_LENGTH : Int) < na * (lb : Int) then .error .iterableTooLong
            else pyMult a b
        | _, _ => pyMult a b
  | _, _ =>
      match a, pyLen b with
      | .int na, some lb =>
          if (MAX_STRING_LENGTH : Int) < na * (lb : Int) then .error .iterableTooLong
          else pyMult a b
      | _, _ => pyMult a b

/--
safe_power: if the absolute value of the base or of the exponent exceeds
MAX_POWER, raise NumberTooHigh before the power is computed.  A negative
integer exponent would give a float in Python, which is outside the modeled
fragment.
-/
def safe_power (a b : Value) : Except EvalError Value :=
  match a, b with
  | .int a, .int b =>
      if MAX_POWER < intAbs a ∨ MAX_POWER < intAbs b then .error .numberTooHigh
      else if 0 ≤ b then .ok (.int (ipow a b.toNat))
      else .error (.unmodeled "float power")
  | _, _ => .error .pythonTypeError

def pyFloorDiv : Value → Value → Except EvalError Value
  | .int a, .int b => if b = 0 then .error .pythonTypeError else .ok (.int (a / b))
  | _, _ => .error .pythonTypeError

def pyMod : Value → Value → Except EvalError Value
  | .int a, .int b => if b = 0 then .error .pythonTypeError else .ok (.int (a % b))
  | _, _ => .error .pythonTypeError

/-- Equality comparison (operator eq).  Scalar values compare structurally;
distinct scalar types compare unequal, as in Python.  Deep equality of
compound values is outside the modeled fragment. -/
def pyEq : Value → Value → Except EvalError Value
  | .int a, .int b => .ok (.bool (a == b))
  | .str a, .str b => .ok (.bool (a == b))
  | .bool a, .bool b => .ok (.bool (a == b))
  | .none, .none => .ok (.bool true)
  | .int _, .str _ => .ok (.bool false)
  | .str _, .int _ => .ok (.bool false)
  | .int _, .none => .ok (.bool false)
  | .none, .int _ => .ok (.bool false)
  | .str _, .none => .ok (.bool false)
  | .none, .str _ => .ok (.bool false)
  | _, _ => .error (.unmodeled "deep equality")

def pyNotEq (a b : Value) : Except EvalError Value :=
  match pyEq a b with
  | .ok (.bool r) => .ok (.bool (!r))
  | .ok _ => .error .pythonTypeError
  | .error e => .error e

def pyLt : Value → Value → Except EvalError Value
  | .int a, .int b => .ok (.bool (a < b))
  | .str a, .str b => .ok (.bool (a < b))
  | _, _ => .error .pythonTypeError

def pyGt : Value → Value → Except EvalError Value
  | .int a, .int b => .ok (.bool (b < a))
  | .str a, .str b => .ok (.bool (b < a))
  | _, _ => .error .pythonTypeError

def pyLe : Value → Value → Except EvalError Value
  | .int a, .int b => .ok (.bool (a ≤ b))
  | .str a, .str b => .ok (.bool (a ≤ b))
  | _, _ => .error .pythonTypeError

def pyGe : Value → Value → Except EvalError Value
  | .int a, .int b => .ok (.bool (b ≤ a))
  | .str a, .str b => .ok (.bool (b ≤ a))
  | _, _ => .error .pythonTypeError

/-- operator not (logical negation, always boolean). -/
def pyNot (v : Value) : Except EvalError Value := .ok (.bool (!truthy v))

def pyNeg : Value → Except EvalError Value
  | .int a => .ok (.int (-a))
  | .bool b => .ok (.int (if b then -1 else 0))
  | _ => .error .pythonTypeError

def pyPos : Value → Except EvalError Value
  | .int a => .ok (.int a)
  | .bool b => .ok (.int (if b then 1 else 0))
  | _ => .error .pythonTypeError

/-! ## The operator table (simpleeval.py lines 238-250)

The Python dict DEFAULT_OPERATORS maps syntax-node operator classes to
functions; binary and unary operators share one table.  The model keeps an
association list keyed by operator kind; a raw lookup of a missing key
raises a bare Python KeyError naming the key, exactly as a dict access
does. -/

inductive OpKind where
  | add | sub | mult | div | floorDiv | pow | mod
  | eq | notEq | gt | lt | gtE | ltE
  | not | uSub | uAdd | invert
  | lShift | rShift | bitAnd | bitOr | bitXor
  deriving DecidableEq, Repr

/-- The class name of the syntax-node operator, as it appears in the
KeyError that a raw table lookup raises. -/
def OpKind.keyName : OpKind → String
  | .add => "Add" | .sub => "Sub" | .mult => "Mult" | .div => "Div"
  | .floorDiv => "FloorDiv" | .pow => "Pow" | .mod => "Mod"
  | .eq => "Eq" | .notEq => "NotEq" | .gt => "Gt" | .lt => "Lt"
  | .gtE => "GtE" | .ltE => "LtE"
  | .not => "Not" | .uSub => "USub" | .uAdd => "UAdd" | .invert => "Invert"
  | .lShift => "LShift" | .rShift => "RShift"
  | .bitAnd => "BitAnd" | .bitOr => "BitOr" | .bitXor => "BitXor"

/-- An entry of the operator table: a binary or a unary Python function. -/
inductive OpFunc where
  | binary (f : Value → Value → Except EvalError Value)
  | unary (f : Value → Except EvalError Value)

/-- Raw dict access self.operators[kind]: a missing key raises a bare
KeyError carrying the key. -/
def opLookup (ops : List (OpKind × OpFunc)) (k : OpKind) : Except EvalError OpFunc :=
  match ops.lookup k with
  | some f => .ok f
  | Option.none => .error (.pythonKeyError k.keyName)

/--
DEFAULT_OPERATORS of the source, restricted to the modeled fragment: Div
(float result), In, NotIn, Is and IsNot are omitted.  Exactly as in the
source, NO shift or bitwise operator kind is mapped: ast.LShift, ast.RShift,
ast.BitAnd, ast.BitOr, ast.BitXor and ast.Invert are absent from the table.
-/
def DEFAULT_OPERATORS : List (OpKind × OpFunc) :=
  [(.add, .binary safe_add), (.sub, .binary pySub), (.mult, .binary safe_mult),
   (.floorDiv, .binary pyFloorDiv), (.pow, .binary safe_power),
   (.mod, .binary pyMod),
   (.eq, .binary pyEq), (.notEq, .binary pyNotEq),
   (.gt, .binary pyGt), (.lt, .binary pyLt),
   (.gtE, .binary pyGe), (.ltE, .binary pyLe),
   (.not, .unary pyNot), (.uSub, .unary pyNeg), (.uAdd, .unary pyPos)]

/-- DEFAULT_FUNCTIONS: rand, randint, int, float, str (each a host
callable). -/
def DEFAULT_FUNCTIONS : List (String × Value) :=
  [("rand", .hostFn "rand"), ("randint", .hostFn "randint"),
   ("int", .hostFn "int"), ("float", .hostFn "float"), ("str", .hostFn "str")]

/-! ## Names resolver and evaluator configuration -/

/-- The polymorphic names attribute: a mapping (anything with item access),
a callable (invoked with the name node; the model passes the id string the
handlers read from it), or absent.  The source tests hasattr getitem first,
then callable. -/
inductive Resolver where
  | mapping (m : List (String × Value))
  | callable (f : String → Except EvalError Value)
  | absent

/-- Evaluator configuration: the tables SimpleEval.init sets up. -/
structure Evaluator where
  operators : List (OpKind × OpFunc)
  functions : List (String × Value)
  names : Resolver
  ATTR_INDEX_FALLBACK : Bool

/-- Mutable evaluator state threaded through one evaluation: the stack of
transient comprehension scopes (the chain of eval_names_extra closures
installed over the base name handler in self.nodes, innermost first) and
the shared iteration counter self._max_count. -/
structure EvalState where
  scopes : List (List (String × Value))
  maxCount : Nat
  deriving Repr

/-- Whether a function value is in DISALLOW_FUNCTIONS (identity check in the
source; by host-callable name here). -/
def isDisallowedFunction : Value → Bool
  | .hostFn id => DISALLOW_FUNCTION_IDS.contains id
  | _ => false

/-- Construction-time loop over self.functions.values checking each against
DISALLOW_FUNCTIONS. -/
def checkFunctions : List (String × Value) → Except EvalError Unit
  | [] => .ok ()
  | (_, f) :: rest =>
      if isDisallowedFunction f then .error .featureNotAvailable
      else checkFunctions rest

/--
SimpleEval.init: defaults are used when a falsy table is supplied, then
every value of the function table is checked against DISALLOW_FUNCTIONS and
FeatureNotAvailable is raised at construction time on a hit.  Only the
function table is varied here; operators and names take their defaults.
-/
def mkSimpleEval (functions : List (String × Value)) : Except EvalError Evaluator :=
  let functions := if functions.isEmpty then DEFAULT_FUNCTIONS else functions
  match checkFunctions functions with
  | .error e => .error e
  | .ok () =>
      .ok { operators := DEFAULT_OPERATORS, functions := functions,
            names := .mapping [], ATTR_INDEX_FALLBACK := true }

/-! ## Name resolution (SimpleEval eval name handler, lines 430-450)

The whole body is wrapped in try/except KeyError: a KeyError raised by
either the mapping lookup or the callable resolver falls back to the
function table, and NameNotDefined is raised when that also misses.  Any
other error propagates unmodified. -/

def evalNameBase (ev : Evaluator) (id : String) : Except EvalError Value :=
  let attempt : Except EvalError Value :=
    match ev.names with
    | .mapping m =>
        match m.lookup id with
        | some v => .ok v
        | Option.none => .error (.pythonKeyError id)
    | .callable f => f id
    | .absent => .error .invalidExpression
  match attempt with
  | .error (.pythonKeyError _) =>
      match ev.functions.lookup id with
      | some v => .ok v
      | Option.none => .error (.nameNotDefined id)
  | r => r

/-- Lookup through the chain of comprehension scopes: each eval_names_extra
closure consults its own extra_names and defers to the handler it
shadowed. -/
def lookupScopes : List (List (String × Value)) → String → Option Value
  | [], _ => Option.none
  | sc :: rest, id =>
      match sc.lookup id with
      | some v => some v
      | Option.none => lookupScopes rest id

/-- Whether an attribute name is rejected by the prefix blocklist. -/
def blockedByAnyMarker (attr : String) : Bool :=
  DISALLOW_PREFIXES.any (fun p => attr.startsWith p)

/-- Native attribute lookup getattr(value, attr): only obj values expose
attributes in the model; on everything else getattr raises AttributeError,
which the source catches and treats the same as TypeError. -/
def getattrValue : Value → String → Option Value
  | .obj attrs, a => attrs.lookup a
  | _, _ => Option.none

/-- Container-style index fallback value[attr]: dict items; a missing key or
a non-container raises KeyError or TypeError, both caught by the source. -/
def indexValue : Value → String → Option Value
  | .dict m, a => m.lookup a
  | _, _ => Option.none

/-- Assoc-list update with dict semantics: the key is bound to the new
value, any previous binding is dropped. -/
def dictSet (m : List (String × Value)) (k : String) (v : Value) :
    List (String × Value) :=
  (k, v) :: m.filter (fun p => p.1 != k)

/-- Binding a comprehension target into the innermost transient scope
(extra_names of the current comprehension).  With no scope pushed there is
nothing to bind into; the comprehension handler always pushes one first. -/
def bindName (s : EvalState) (target : String) (v : Value) : EvalState :=
  match s.scopes with
  | top :: rest => { s with scopes := dictSet top target v :: rest }
  | [] => s

/-! ## Expression syntax

The node kinds of the modeled fragment, as the external parser produces
them.  A compare node keeps its zipped operator/comparator pairs; a
comprehension node is a single generator clause with a simple name target
(the swap-and-restore of the name handler, which is what is verified below,
happens once per comprehension, outside the per-clause recursion of the
source). -/

inductive Expr where
  | num (n : Int)
  | strLit (s : String)
  | boolLit (b : Bool)
  | noneLit
  | name (id : String)
  | unaryOp (op : OpKind) (operand : Expr)
  | binOp (op : OpKind) (left : Expr) (right : Expr)
  | compare (left : Expr) (pairs : List (OpKind × Expr))
  | call (func : Expr) (args : List Expr)
  | attribute (value : Expr) (attr : String)
  | listLit (elts : List Expr)
  | listComp (elt : Expr) (target : String) (iter : Expr) (ifs : List Expr)
  deriving Repr

/-- Every expression node has positive size (used by the termination
measure of the evaluator). -/
theorem Expr.sizeOf_pos (e : Expr) : 0 < sizeOf e := by
  cases e <;> simp_arith

mutual

/--
Evaluation of one expression node, combining the handlers of SimpleEval and
the compound-type additions.  `ha` gives the behaviour of host callables.
Each case is the body of the corresponding Python handler:
num/str/constant literals, the name handler behind the comprehension-scope
chain, unary and binary operators (table lookup first, then operands),
chained comparison, calls (attribute path without the disallowed-callable
check, exactly as in the source, where that check sits inside the
plain-name branch), attribute access with the blocklists checked before the
base is evaluated, list literals, and list comprehensions with the
swap-and-restore of the name handler around the generator loop.
-/
def evalExpr (ha : String → List Value → Except EvalError Value) (ev : Evaluator) :
    Expr → EvalState → Except EvalError Value × EvalState
  | .num n, s => (.ok (.int n), s)
  | .strLit str, s =>
      if MAX_STRING_LENGTH < str.length then (.error .iterableTooLong, s)
      else (.ok (.str str), s)
  | .boolLit b, s => (.ok (.bool b), s)
  | .noneLit, s => (.ok .none, s)
  | .name id, s =>
      match lookupScopes s.scopes id with
      | some v => (.ok v, s)
      | Option.none => (evalNameBase ev id, s)
  | .unaryOp k e1, s =>
      match opLookup ev.operators k with
      | .error err => (.error err, s)
      | .ok f =>
          let r := evalExpr ha ev e1 s
          match r.1 with
          | .error e => (.error e, r.2)
          | .ok v =>
              match f with
              | .unary g => (g v, r.2)
              | .binary _ => (.error .pythonTypeError, r.2)
  | .binOp k l rgt, s =>
      match opLookup ev.operators k with
      | .error err => (.error err, s)
      | .ok f =>
          let rl := evalExpr ha ev l s
          match rl.1 with
          | .error e => (.error e, rl.2)
          | .ok lv =>
              let rr := evalExpr ha ev rgt rl.2
              match rr.1 with
              | .error e => (.error e, rr.2)
              | .ok rv =>
                  match f with
                  | .binary g => (g lv rv, rr.2)
                  | .unary _ => (.error .pythonTypeError, rr.2)
  | .compare l pairs, s =>
      let rl := evalExpr ha ev l s
      match rl.1 with
      | .error e => (.error e, rl.2)
      | .ok lv => evalCompare ha ev lv (.bool true) pairs rl.2
  | .call (.attribute base attr) args, s =>
      let rf := evalExpr ha ev (.attribute base attr) s
      match rf.1 with
      | .error e => (.error e, rf.2)
      | .ok fv =>
          let ra := evalList ha ev args rf.2
          match ra.1 with
          | .error e => (.error e, ra.2)
          | .ok argv =>
              match fv with
              | .hostFn fid => (ha fid argv, ra.2)
              | _ => (.error .pythonTypeError, ra.2)
  | .call (.name fid) args, s =>
      match ev.functions.lookup fid with
      | Option.none => (.error (.functionNotDefined fid), s)
      | some fv =>
          if isDisallowedFunction fv then (.error .featureNotAvailable, s)
          else
            let ra := evalList ha ev args s
            match ra.1 with
            | .error e => (.error e, ra.2)
            | .ok argv =>
                match fv with
                | .hostFn fid2 => (ha fid2 argv, ra.2)
                | _ => (.error .pythonTypeError, ra.2)
  | .call _ _, s => (.error .featureNotAvailable, s)
  | .attribute base attr, s =>
      if blockedByAnyMarker attr then (.error .featureNotAvailable, s)
      else if DISALLOW_METHODS.contains attr then (.error .featureNotAvailable, s)
      else
        let rb := evalExpr ha ev base s
        match rb.1 with
        | .error e => (.error e, rb.2)
        | .ok v =>
            match getattrValue v attr with
            | some res => (.ok res, rb.2)
            | Option.none =>
                if ev.ATTR_INDEX_FALLBACK then
                  match indexValue v attr with
                  | some res => (.ok res, rb.2)
                  | Option.none => (.error (.attributeDoesNotExist attr), rb.2)
                else (.error (.attributeDoesNotExist attr), rb.2)
  | .listLit elts, s =>
      let r := evalList ha ev elts s
      (Except.map Value.list r.1, r.2)
  | .listComp elt target iter ifs, s =>
      let res := compBody ha ev elt target iter ifs { s with scopes := [] :: s.scopes }
      (Except.map Value.list res.1, { res.2 with scopes := s.scopes })
termination_by e s => sizeOf e

/-- Left-to-right evaluation of a list of argument or element
expressions. -/
def evalList (ha : String → List Value → Except EvalError Value) (ev : Evaluator) :
    List Expr → EvalState → Except EvalError (List Value) × EvalState
  | [], s => (.ok [], s)
  | e :: rest, s =>
      let r := evalExpr ha ev e s
      match r.1 with
      | .error err => (.error err, r.2)
      | .ok v =>
          let rs := evalList ha ev rest r.2
          match rs.1 with
          | .error err => (.error err, rs.2)
          | .ok vs => (.ok (v :: vs), rs.2)
termination_by es s => sizeOf es

/-- Short-circuit conjunction over the comprehension filter clauses. -/
def evalIfs (ha : String → List Value → Except EvalError Value) (ev : Evaluator) :
    List Expr → EvalState → Except EvalError Bool × EvalState
  | [], s => (.ok true, s)
  | e :: rest, s =>
      let r := evalExpr ha ev e s
      match r.1 with
      | .error err => (.error err, r.2)
      | .ok v => if truthy v then evalIfs ha ev rest r.2 else (.ok false, r.2)
termination_by ifs s => sizeOf ifs

/--
The comparison loop of the compare handler: `right` is the value compared
so far, `to_ret` the running result (initially the boolean true).  At the
top of each iteration a falsy running result breaks out of the loop, so the
remaining comparators are never evaluated; otherwise the next comparator is
evaluated, the operator applied, and the loop continues with the bare
operator result, which is also what a finished loop returns, unconverted.
-/
def evalCompare (ha : String → List Value → Except EvalError Value) (ev : Evaluator)
    (right to_ret : Value) :
    List (OpKind × Expr) → EvalState → Except EvalError Value × EvalState
  | [], s => (.ok to_ret, s)
  | (kind, comp) :: rest, s =>
      if truthy to_ret then
        let r := evalExpr ha ev comp s
        match r.1 with
        | .error e => (.error e, r.2)
        | .ok newRight =>
            match opLookup ev.operators kind with
            | .error e => (.error e, r.2)
            | .ok (.unary _) => (.error .pythonTypeError, r.2)
            | .ok (.binary f) =>
                match f right newRight with
                | .error e => (.error e, r.2)
                | .ok res => evalCompare ha ev newRight res rest r.2
      else (.ok to_ret, s)
termination_by pairs s => sizeOf pairs

/--
Body of one comprehension evaluation, run with the transient scope already
pushed: evaluate the generator source, then for each produced item count it
against the shared iteration ceiling, bind the target into the transient
scope, evaluate the filters with short-circuit AND and, when they hold,
emit the evaluated element.  An error from the source, a filter or the
element aborts the loop and is returned; the caller restores the previous
name handler on every path.
-/
def compBody (ha : String → List Value → Except EvalError Value) (ev : Evaluator)
    (elt : Expr) (target : String) (iter : Expr) (ifs : List Expr)
    (s : EvalState) : Except EvalError (List Value) × EvalState :=
  let ri := evalExpr ha ev iter s
  match ri.1 with
  | .error e => (.error e, ri.2)
  | .ok itv =>
      match pyIter itv with
      | Option.none => (.error .pythonTypeError, ri.2)
      | some items =>
          items.foldl
            (fun acc item =>
              match acc with
              | (.error e, s1) => (.error e, s1)
              | (.ok vs, s1) =>
                  let s2 := { s1 with maxCount := s1.maxCount + 1 }
                  if MAX_COMPREHENSION_LENGTH < s2.maxCount then
                    (.error .iterableTooLong, s2)
                  else
                    let s3 := bindName s2 target item
                    let rif := evalIfs ha ev ifs s3
                    match rif.1 with
                    | .error e => (.error e, rif.2)
                    | .ok false => (.ok vs, rif.2)
                    | .ok true =>
                        let rv := evalExpr ha ev elt rif.2
                        match rv.1 with
                        | .error e => (.error e, rv.2)
                        | .ok v => (.ok (vs ++ [v]), rv.2))
            (((.ok []) : Except EvalError (List Value)), ri.2)
termination_by sizeOf elt + sizeOf iter + sizeOf ifs
decreasing_by
  all_goals simp_wf
  all_goals (have he := Expr.sizeOf_pos elt; have hi := Expr.sizeOf_pos iter; omega)

end

/-! ## Statement execution (SimpleExecutor and ExecutorWithControl)

The control-transfer signals of the source are the exception classes
Return, Break and Continue (subclasses of BaseException); the model carries
them, together with ordinary errors, in the error channel of `Except`.
The executor keeps the mutable name dict (assignment requires the names
attribute to be a dict), the statement counter and the shared loop
counter. -/

inductive Signal where
  /-- an ordinary evaluation error -/
  | err (e : EvalError)
  /-- the Return control-transfer exception, carrying its payload -/
  | ret (v : Value)
  /-- the Break control-transfer exception -/
  | brk
  /-- the Continue control-transfer exception -/
  | cont
  deriving Repr

/-- Statement node kinds of the modeled fragment.  Assignment targets are
simple names (the model does not need destructuring or subscript targets);
while is omitted, its loop body handling is identical to that of for. -/
inductive Stmt where
  | exprStmt (e : Expr)
  | assign (target : String) (e : Expr)
  | ret (e : Expr)
  | ifStmt (test : Expr) (body orelse : List Stmt)
  | forStmt (target : String) (iter : Expr) (body orelse : List Stmt)
  | brk
  | cont
  | pass
  deriving Repr

/-- Mutable executor state: the names dict, the statement counter
self._num_stmts and the shared loop counter self._max_count. -/
structure ExecState where
  names : List (String × Value)
  numStmts : Nat
  maxCount : Nat
  deriving Repr

/-- Evaluation of one expression inside the executor: the evaluator sees
the current names dict as its mapping resolver, and the shared loop counter
is threaded through.  Ordinary errors become err signals. -/
def evalInExec (ha : String → List Value → Except EvalError Value) (ev : Evaluator)
    (e : Expr) (st : ExecState) : Except Signal Value × ExecState :=
  let ev := { ev with names := .mapping st.names }
  let r := evalExpr ha ev e { scopes := [], maxCount := st.maxCount }
  let st := { st with maxCount := r.2.maxCount }
  match r.1 with
  | .ok v => (.ok v, st)
  | .error e => (.error (.err e), st)

mutual

/--
Execution of one statement node.  The statement counter is incremented and
checked on each node evaluation (the source counts every node the executor
evaluates; the model counts statement nodes, which is the part the
executor adds on top of expression evaluation).  The if and for handlers
run their blocks through `execBody`, whose result value — the payload of a
Return caught by the nested block — is discarded, exactly as in the
source, where the handlers call self._exec on the block and ignore what it
returns.
-/
def execStmt (ha : String → List Value → Except EvalError Value) (ev : Evaluator) :
    Stmt → ExecState → Except Signal Unit × ExecState
  | stmt, st =>
      let st := { st with numStmts := st.numStmts + 1 }
      if MAX_NUM_STATEMENTS < st.numStmts then (.error (.err .tooManyStatements), st)
      else
        match stmt with
        | .exprStmt e =>
            let r := evalInExec ha ev e st
            match r.1 with
            | .ok _ => (.ok (), r.2)
            | .error sig => (.error sig, r.2)
        | .assign target e =>
            let r := evalInExec ha ev e st
            match r.1 with
            | .ok v => (.ok (), { r.2 with names := dictSet r.2.names target v })
            | .error sig => (.error sig, r.2)
        | .ret e =>
            let r := evalInExec ha ev e st
            match r.1 with
            | .ok v => (.error (.ret v), r.2)
            | .error sig => (.error sig, r.2)
        | .ifStmt test body orelse =>
            let r := evalInExec ha ev test st
            match r.1 with
            | .error sig => (.error sig, r.2)
            | .ok tv =>
                if truthy tv then
                  let rb := execBody ha ev body r.2
                  match rb.1 with
                  | .ok _ => (.ok (), rb.2)
                  | .error sig => (.error sig, rb.2)
                else
                  let rb := execBody ha ev orelse r.2
                  match rb.1 with
                  | .ok _ => (.ok (), rb.2)
                  | .error sig => (.error sig, rb.2)
        | .forStmt target iter body orelse =>
            let r := evalInExec ha ev iter st
            match r.1 with
            | .error sig => (.error sig, r.2)
            | .ok itv =>
                match pyIter itv with
                | Option.none => (.error (.err .pythonTypeError), r.2)
                | some items =>
                    let lr := items.foldl
                      (fun acc item =>
                        match acc with
                        | (.error sig, s1) => (.error sig, s1)
                        | (.ok false, s1) => (.ok false, s1)
                        | (.ok true, s1) =>
                            let s2 := { s1 with maxCount := s1.maxCount + 1 }
                            if MAX_COMPREHENSION_LENGTH < s2.maxCount then
                              (.error (.err .iterableTooLong), s2)
                            else
                              let s3 := { s2 with names := dictSet s2.names target item }
                              let rb := execBody ha ev body s3
                              match rb.1 with
                              | .ok _ => (.ok true, rb.2)
                              | .error .brk => (.ok false, rb.2)
                              | .error .cont => (.ok true, rb.2)
                              | .error sig => (.error sig, rb.2))
                      (((.ok true) : Except Signal Bool), r.2)
                    match lr.1 with
                    | .error sig => (.error sig, lr.2)
                    | .ok false => (.ok (), lr.2)
                    | .ok true =>
                        let re := execBody ha ev orelse lr.2
                        match re.1 with
                        | .ok _ => (.ok (), re.2)
                        | .error sig => (.error sig, re.2)
        | .brk => (.error .brk, st)
        | .cont => (.error .cont, st)
        | .pass => (.ok (), st)
termination_by stmt st => sizeOf stmt

/--
The block runner self._exec: statements run in order; a Return signal
raised by a statement is caught HERE, in whichever block the statement
belongs to, and turned into the block result; every other signal
propagates.  A block that runs to the end yields no value.
-/
def execBody (ha : String → List Value → Except EvalError Value) (ev : Evaluator) :
    List Stmt → ExecState → Except Signal (Option Value) × ExecState
  | [], st => (.ok Option.none, st)
  | stmt :: rest, st =>
      let r := execStmt ha ev stmt st
      match r.1 with
      | .ok () => execBody ha ev rest r.2
      | .error (.ret v) => (.ok (some v), r.2)
      | .error sig => (.error sig, r.2)
termination_by body st => sizeOf body

end

/--
ExecutorWithControl.exec: reset the statement and loop counters, then run
the statement sequence through self._exec.  A Break or Continue signal
escaping all blocks would surface as a raw Python exception; the model
marks it as outside the fragment.
-/
def execProgram (ha : String → List Value → Except EvalError Value) (ev : Evaluator)
    (body : List Stmt) (names : List (String × Value)) :
    Except EvalError (Option Value) :=
  let st : ExecState := { names := names, numStmts := 0, maxCount := 0 }
  match (execBody ha ev body st).1 with
  | .ok r => .ok r
  | .error (.err e) => .error e
  | .error (.ret v) => .ok (some v)
  | .error .brk => .error (.unmodeled "break outside loop")
  | .error .cont => .error (.unmodeled "continue outside loop")

/-! ## Concrete fixtures used by the verification theorems -/

/-- Host behaviour with no callable implemented: every invocation raises a
host error naming the callable.  Used where invocation must not happen. -/
def noHost : String → List Value → Except EvalError Value :=
  fun f _ => .error (.hostError f)

/-- An evaluator with all defaults, as SimpleEval constructs it (the
default names True/False/None parse as constants here, so the mapping is
empty). -/
def defaultEval : Evaluator :=
  { operators := DEFAULT_OPERATORS, functions := DEFAULT_FUNCTIONS,
    names := .mapping [], ATTR_INDEX_FALLBACK := true }

/-- Fresh per-call state: no comprehension scope, zero loop counter. -/
def st0 : EvalState := { scopes := [], maxCount := 0 }

/-- Host behaviour where the exec builtin is callable and every call to it
succeeds observably. -/
def hostExec : String → List Value → Except EvalError Value :=
  fun f _ => if f == "exec" then .ok (.str "EXECUTED") else .error (.hostError f)

/-- An evaluator whose names expose a container holding the exec builtin,
reachable by an attribute chain through the index fallback (the shape of
the breakout in the test suite). -/
def breakoutEval : Evaluator :=
  { defaultEval with names := .mapping [("g", .dict [("exec", .hostFn "exec")])] }

/-- An evaluator whose function table maps a plain name to the exec
builtin (as a test does by assigning to the table after construction). -/
def forbiddenByName : Evaluator :=
  { defaultEval with functions := [("e", .hostFn "exec")] }

/-- An evaluator with an empty operator table. -/
def noOpsEval : Evaluator := { defaultEval with operators := [] }

/-- An evaluator whose callable names resolver always raises a bare
KeyError, while the function table holds an entry for the name c — the
shape of the resolver test in the test suite. -/
def keyErrorResolverEval : Evaluator :=
  { defaultEval with names := .callable (fun _ => .error (.pythonKeyError "test")),
                     functions := [("c", .int 42)] }

/-! ## C1: propagation of the return signal through nested blocks -/

/--
C1: the claim states that a return signal raised inside a nested block
aborts the rest of the current block and all enclosing blocks and that its
payload becomes the overall exec result.  In the code the block runner
self.exec catches the Return signal inside whichever block the return
statement belongs to, and the if/for handlers discard that block result,
so: the program (if True: return 5) followed by (return 3) yields 3 where
the claim expects 5; the program (if True: return 5) alone yields no
result; and a return inside a for body merely ends the current body,
letting the loop continue and a later statement produce the result.
-/
theorem c1_nested_return_payload_lost :
    execProgram noHost defaultEval
      [.ifStmt (.boolLit true) [.ret (.num 5)] [], .ret (.num 3)] []
      = .ok (some (.int 3)) ∧
    execProgram noHost defaultEval
      [.ifStmt (.boolLit true) [.ret (.num 5)] []] []
      = .ok Option.none ∧
    execProgram noHost defaultEval
      [.forStmt "i" (.listLit [.num 1, .num 2, .num 3]) [.ret (.name "i")] [],
       .ret (.num 0)] []
      = .ok (some (.int 0)) := by
  refine ⟨?_, ?_, ?_⟩ <;>
    simp +ground [execProgram, execBody, execStmt, evalInExec, evalExpr,
                  evalList, defaultEval, evalNameBase, lookupScopes, dictSet]

/-! ## C2: the blocked-callable check on the two call resolution paths -/

/--
C2: the claim states that a resolved callable belonging to the
blocked-callable set raises FeatureNotAvailable before invocation on BOTH
resolution paths.  In the code the check sits inside the plain-name branch
of the call handler, so a blocked callable reached through an attribute
chain is invoked: with the exec builtin exposed behind an attribute, the
call returns the host result of actually running exec, although exec is in
the blocked set; on the plain-name path the check does fire, and it does so
for every host behaviour, i.e. before any invocation.
-/
theorem c2_blocked_callable_check_only_on_name_path :
    (evalExpr hostExec breakoutEval
        (.call (.attribute (.name "g") "exec") []) st0).1
      = .ok (.str "EXECUTED") ∧
    isDisallowedFunction (.hostFn "exec") = true ∧
    ∀ ha : String → List Value → Except EvalError Value,
      evalExpr ha forbiddenByName (.call (.name "e") []) st0
        = (.error .featureNotAvailable, st0) := by
  refine ⟨?_, by decide, fun ha => ?_⟩ <;>
    simp +ground [evalExpr, evalList, breakoutEval, forbiddenByName,
      defaultEval, evalNameBase, lookupScopes, getattrValue, indexValue,
      List.lookup, hostExec, st0]

/-! ## C3: attribute blocklist checked before the base is evaluated -/

/--
C3 counterexample: the claim states that the base expression of a blocked
attribute access is still evaluated, with its side effects.  Evaluating the
base alone (a comprehension over two items) advances the shared loop
counter to 2, but the blocked access returns FeatureNotAvailable with the
state untouched: the base was never evaluated.
-/
theorem c3_base_side_effects_do_not_occur :
    evalExpr noHost defaultEval
      (.attribute (.listComp (.name "a") "a" (.listLit [.num 1, .num 2]) [])
        "format") st0
      = (.error .featureNotAvailable, st0) ∧
    evalExpr noHost defaultEval
      (.listComp (.name "a") "a" (.listLit [.num 1, .num 2]) []) st0
      = (.ok (.list [.int 1, .int 2]), { scopes := [], maxCount := 2 }) := by
  constructor <;>
    simp +ground [evalExpr, compBody, evalList, evalIfs, defaultEval, st0,
      bindName, dictSet, lookupScopes, evalNameBase]

/--
C3 as amended: an attribute access whose name starts with a blocked prefix
or matches a blocked method name raises FeatureNotAvailable independent of
the underlying value, with the check made before any attempt to read the
attribute and before the base expression is evaluated — the result and the
final state are the same for every base expression, every evaluator and
every host behaviour, so the side effects of the base do not occur.
-/
theorem c3_blocked_attribute_check_before_base
    (ha : String → List Value → Except EvalError Value) (ev : Evaluator)
    (base : Expr) (attr : String) (s : EvalState)
    (h : blockedByAnyMarker attr = true ∨ DISALLOW_METHODS.contains attr = true) :
    evalExpr ha ev (.attribute base attr) s = (.error .featureNotAvailable, s) := by
  rcases h with h | h
  · simp only [evalExpr]
    rw [if_pos h]
  · by_cases hb : blockedByAnyMarker attr = true
    · simp only [evalExpr]
      rw [if_pos hb]
    · simp only [evalExpr]
      rw [if_neg hb, if_pos h]

/-- C3 witness: the blocked method name format on an integer base. -/
theorem c3_blocked_attribute_check_before_base_witness :
    evalExpr noHost defaultEval (.attribute (.num 1) "format") st0
      = (.error .featureNotAvailable, st0) :=
  c3_blocked_attribute_check_before_base noHost defaultEval (.num 1) "format"
    st0 (Or.inr (by decide))

/-! ## C4: shift operators -/

/--
C4: the claim states that shift expressions evaluate natively within a
shift ceiling and raise NumberTooHigh beyond it.  The default operator
table of the code maps no shift kind at all, so every shift expression
fails with a bare KeyError from the raw table lookup — there is no shift
ceiling and no shift result.  (The test suite of the repository expects
10 << 10 to evaluate to 10240 and references the shift ceiling constants,
which the module does not define.)
-/
theorem c4_shift_operators_missing :
    (evalExpr noHost defaultEval (.binOp .lShift (.num 10) (.num 10)) st0).1
      = .error (.pythonKeyError "LShift") ∧
    (evalExpr noHost defaultEval (.binOp .rShift (.num 1000) (.num 2)) st0).1
      = .error (.pythonKeyError "RShift") ∧
    List.lookup OpKind.lShift DEFAULT_OPERATORS = Option.none ∧
    List.lookup OpKind.rShift DEFAULT_OPERATORS = Option.none := by
  refine ⟨?_, ?_, by rfl, by rfl⟩ <;>
    simp +ground [evalExpr, defaultEval]

/-! ## C5: unmapped operator kinds -/

/--
C5: the claim states that an operator kind absent from the operator table
fails with the typed error OperatorNotDefined.  The module defines no such
exception class, and the operator handlers perform a raw dict lookup, so an
unmapped kind raises a bare KeyError — an untyped crash: with an empty
operator table both a binary and a unary operator fail that way, the raised
error is not one of the engine error classes, and in general every lookup
miss produces exactly the KeyError of the raw dict access.
-/
theorem c5_unmapped_operator_is_bare_keyerror :
    (evalExpr noHost noOpsEval (.binOp .add (.num 1) (.num 2)) st0).1
      = .error (.pythonKeyError "Add") ∧
    (evalExpr noHost noOpsEval (.unaryOp .uSub (.num 2)) st0).1
      = .error (.pythonKeyError "USub") ∧
    (EvalError.pythonKeyError "Add").isEngineError = false ∧
    ∀ (k : OpKind) (ops : List (OpKind × OpFunc)),
      ops.lookup k = Option.none →
      opLookup ops k = .error (.pythonKeyError k.keyName) := by
  refine ⟨?_, ?_, by decide, fun k ops h => ?_⟩
  · simp +ground [evalExpr, noOpsEval, defaultEval]
  · simp +ground [evalExpr, noOpsEval, defaultEval]
  · simp [opLookup, h]

/-- C5 witness: the lookup of the xor kind in the default table misses and
raises the KeyError naming it. -/
theorem c5_unmapped_operator_is_bare_keyerror_witness :
    opLookup DEFAULT_OPERATORS OpKind.bitXor
      = .error (.pythonKeyError "BitXor") :=
  c5_unmapped_operator_is_bare_keyerror.2.2.2 OpKind.bitXor DEFAULT_OPERATORS
    (by rfl)

/-! ## C6: errors raised by a callable names resolver -/

/--
C6: the claim states that every error a callable resolver raises, a
key-lookup error included, propagates unmodified, never replaced by a
fallback to the function table.  The name handler wraps the resolver call
in the same try/except KeyError as the mapping lookup, so a KeyError from
the resolver is caught and replaced: with a resolver that always raises
KeyError and a function table holding c, the name c evaluates to the
function-table entry; without that entry it becomes NameNotDefined; only
errors other than KeyError propagate unmodified.
-/
theorem c6_resolver_keyerror_caught_and_replaced :
    evalExpr noHost keyErrorResolverEval (.name "c") st0 = (.ok (.int 42), st0) ∧
    evalExpr noHost { keyErrorResolverEval with functions := [] } (.name "c") st0
      = (.error (.nameNotDefined "c"), st0) ∧
    ∀ e : EvalError, (∀ k, e ≠ .pythonKeyError k) →
      evalExpr noHost
        { defaultEval with names := .callable (fun _ => .error e), functions := [] }
        (.name "x") st0
        = (.error e, st0) := by
  refine ⟨?_, ?_, fun e he => ?_⟩
  · simp +ground [evalExpr, keyErrorResolverEval, defaultEval, evalNameBase,
      lookupScopes, st0]
  · simp +ground [evalExpr, keyErrorResolverEval, defaultEval, evalNameBase,
      lookupScopes, st0]
  · cases e <;>
      simp +ground [evalExpr, evalNameBase, lookupScopes, defaultEval, st0]
    exact absurd rfl (he _)

/-- C6 witness: a host error from the resolver propagates with its
identity. -/
theorem c6_resolver_keyerror_caught_and_replaced_witness :
    evalExpr noHost
      { defaultEval with names := .callable (fun _ => .error (.hostError "boom")),
                         functions := [] }
      (.name "x") st0
      = (.error (.hostError "boom"), st0) :=
  c6_resolver_keyerror_caught_and_replaced.2.2 (.hostError "boom")
    (fun _ h => nomatch h)

/-! ## C7: the power ceiling -/

/--
C7: safe_power raises NumberTooHigh before computing the power whenever the
absolute value of the base or of the exponent exceeds MAX_POWER, and
otherwise returns the native integer power; with the default ceiling the
expression 9 ** 9 ** 5 evaluates to the native result 9 to the 59049
(ipow 9 59049) while 9 ** 9 ** 8 raises NumberTooHigh, because the inner
power 9 ** 8 = 43046721 is computed first and exceeds the ceiling in its
role as the outer exponent.
-/
theorem safe_power_within (a b : Int) (ha : intAbs a ≤ MAX_POWER)
    (hb : intAbs b ≤ MAX_POWER) (hb0 : 0 ≤ b) :
    safe_power (.int a) (.int b) = .ok (.int (ipow a b.toNat)) := by
  simp only [safe_power]
  rw [if_neg (not_or.mpr ⟨not_lt.mpr ha, not_lt.mpr hb⟩), if_pos hb0]

theorem safe_power_beyond (a b : Int)
    (h : MAX_POWER < intAbs a ∨ MAX_POWER < intAbs b) :
    safe_power (.int a) (.int b) = .error .numberTooHigh := by
  simp only [safe_power]
  rw [if_pos h]

theorem c7_power_ceiling :
    (∀ a b : Int, intAbs a ≤ MAX_POWER → intAbs b ≤ MAX_POWER → 0 ≤ b →
        safe_power (.int a) (.int b) = .ok (.int (ipow a b.toNat))) ∧
    (∀ a b : Int, MAX_POWER < intAbs a ∨ MAX_POWER < intAbs b →
        safe_power (.int a) (.int b) = .error .numberTooHigh) ∧
    (evalExpr noHost defaultEval
        (.binOp .pow (.num 9) (.binOp .pow (.num 9) (.num 5))) st0).1
      = .ok (.int (ipow 9 59049)) ∧
    (evalExpr noHost defaultEval
        (.binOp .pow (.num 9) (.binOp .pow (.num 9) (.num 8))) st0).1
      = .error .numberTooHigh ∧
    ipow 9 5 = 59049 ∧ ipow 9 8 = 43046721 ∧ MAX_POWER < 43046721 := by
  have hop : opLookup defaultEval.operators OpKind.pow
      = .ok (.binary safe_power) := by rfl
  have h5 : evalExpr noHost defaultEval (.binOp .pow (.num 9) (.num 5)) st0
      = (.ok (.int 59049), st0) := by
    simp only [evalExpr, hop,
      safe_power_within 9 5 (by decide) (by decide) (by decide)]
    rw [show ipow 9 (Int.toNat 5) = 59049 from by decide]
  have h8 : evalExpr noHost defaultEval (.binOp .pow (.num 9) (.num 8)) st0
      = (.ok (.int 43046721), st0) := by
    simp only [evalExpr, hop,
      safe_power_within 9 8 (by decide) (by decide) (by decide)]
    rw [show ipow 9 (Int.toNat 8) = 43046721 from by decide]
  refine ⟨safe_power_within, safe_power_beyond, ?_, ?_,
          by decide, by decide, by decide⟩
  · simp only [evalExpr, hop, h5,
      safe_power_within 9 59049 (by decide) (by decide) (by decide)]
    rw [show Int.toNat 59049 = 59049 from rfl]
  · simp only [evalExpr, hop, h8,
      safe_power_beyond 9 43046721 (Or.inr (by decide))]

/-- C7 witness: a small in-ceiling power computes natively, a power with an
exponent beyond the ceiling is rejected. -/
theorem c7_power_ceiling_witness :
    safe_power (.int 2) (.int 10) = .ok (.int (ipow 2 (Int.toNat 10))) ∧
    safe_power (.int 2) (.int 5000000) = .error .numberTooHigh :=
  ⟨c7_power_ceiling.1 2 10 (by decide) (by decide) (by decide),
   c7_power_ceiling.2.1 2 5000000 (Or.inr (by decide))⟩

/-! ## C9: removal of the transient comprehension scope -/

/--
C9: the comprehension handler pushes the transient scope, runs the
generator loop, and restores the previous name handler on every exit path:
for every evaluator, host behaviour, comprehension and starting state the
final scope stack equals the starting one, whether the evaluation succeeds
or fails.  Concretely, the comprehension of the spec evaluates to 2, 3, 4
and afterwards the target name is not resolvable in a separate evaluation
against the same resolver; a failing source, a failing filter and a
failing emitted value each leave the scope stack as it was.
-/
theorem c9_comprehension_scope_restored :
    (∀ (ha : String → List Value → Except EvalError Value) (ev : Evaluator)
        (elt : Expr) (target : String) (iter : Expr) (ifs : List Expr)
        (s : EvalState),
        ((evalExpr ha ev (.listComp elt target iter ifs) s).2).scopes
          = s.scopes) ∧
    evalExpr noHost defaultEval
      (.listComp (.binOp .add (.name "a") (.num 1)) "a"
        (.listLit [.num 1, .num 2, .num 3]) []) st0
      = (.ok (.list [.int 2, .int 3, .int 4]), { scopes := [], maxCount := 3 }) ∧
    evalExpr noHost defaultEval (.name "a") { scopes := [], maxCount := 3 }
      = (.error (.nameNotDefined "a"), { scopes := [], maxCount := 3 }) ∧
    evalExpr noHost defaultEval
      (.listComp (.name "a") "a" (.name "missing") []) st0
      = (.error (.nameNotDefined "missing"), st0) ∧
    evalExpr noHost defaultEval
      (.listComp (.name "a") "a" (.listLit [.num 1]) [.name "missing"]) st0
      = (.error (.nameNotDefined "missing"), { scopes := [], maxCount := 1 }) ∧
    evalExpr noHost defaultEval
      (.listComp (.name "missing") "a" (.listLit [.num 1]) []) st0
      = (.error (.nameNotDefined "missing"), { scopes := [], maxCount := 1 }) := by
  refine ⟨fun ha ev elt target iter ifs s => ?_, ?_, ?_, ?_, ?_, ?_⟩
  · simp [evalExpr]
  all_goals
    simp +ground [evalExpr, compBody, evalList, evalIfs, defaultEval, st0,
      bindName, dictSet, lookupScopes, evalNameBase, pyLen, safe_add, pyAdd,
      List.lookup]

/-! ## C10: the construction-time function-table check -/

/-- Any function table one of whose values is disallowed fails the
construction-time check with FeatureNotAvailable. -/
theorem checkFunctions_error_of_mem (fns : List (String × Value))
    (h : ∃ p ∈ fns, isDisallowedFunction p.2 = true) :
    checkFunctions fns = .error .featureNotAvailable := by
  induction fns with
  | nil => rcases h with ⟨p, hp, _⟩; cases hp
  | cons q rest ih =>
      obtain ⟨qn, qv⟩ := q
      by_cases hq : isDisallowedFunction qv = true
      · simp [checkFunctions, hq]
      · simp only [checkFunctions, hq, if_false, Bool.false_eq_true]
        rcases h with ⟨p, hp, hd⟩
        rcases List.mem_cons.mp hp with rfl | hmem
        · exact absurd hd hq
        · exact ih ⟨p, hmem, hd⟩

/-- A function table free of disallowed values passes the construction-time
check. -/
theorem checkFunctions_ok_of_clean (fns : List (String × Value))
    (h : ∀ p ∈ fns, isDisallowedFunction p.2 = false) :
    checkFunctions fns = .ok () := by
  induction fns with
  | nil => rfl
  | cons q rest ih =>
      obtain ⟨qn, qv⟩ := q
      have hq := h (qn, qv) (List.mem_cons_self _ _)
      simp only [checkFunctions, hq, Bool.false_eq_true, if_false]
      exact ih (fun p hp => h p (List.mem_cons_of_mem _ hp))

/--
C10: constructing an evaluator whose function table maps some name to a
function of the hard-coded disallowed set raises FeatureNotAvailable at
construction time, before anything is evaluated; a table free of those
functions (the empty table is replaced by the clean defaults) constructs
successfully.
-/
theorem c10_disallowed_functions_rejected_at_init :
    (∀ fns : List (String × Value),
        (∃ p ∈ fns, isDisallowedFunction p.2 = true) →
        mkSimpleEval fns = .error .featureNotAvailable) ∧
    (∀ fns : List (String × Value),
        (∀ p ∈ fns, isDisallowedFunction p.2 = false) →
        ∃ ev : Evaluator, mkSimpleEval fns = .ok ev) := by
  constructor
  · intro fns h
    have hne : fns.isEmpty = false := by
      rcases h with ⟨p, hp, _⟩
      cases fns
      · cases hp
      · rfl
    simp [mkSimpleEval, hne, checkFunctions_error_of_mem fns h]
  · intro fns h
    by_cases he : fns.isEmpty
    · refine ⟨{ operators := DEFAULT_OPERATORS, functions := DEFAULT_FUNCTIONS,
                 names := .mapping [], ATTR_INDEX_FALLBACK := true }, ?_⟩
      simp [mkSimpleEval, he,
        checkFunctions_ok_of_clean DEFAULT_FUNCTIONS (by decide)]
    · refine ⟨{ operators := DEFAULT_OPERATORS, functions := fns,
                 names := .mapping [], ATTR_INDEX_FALLBACK := true }, ?_⟩
      simp [mkSimpleEval, he, checkFunctions_ok_of_clean fns h]

/-- C10 witness: a table holding the open builtin is rejected at
construction; a table holding a harmless host function constructs. -/
theorem c10_disallowed_functions_rejected_at_init_witness :
    mkSimpleEval [("f", .hostFn "open")] = .error .featureNotAvailable ∧
    ∃ ev : Evaluator, mkSimpleEval [("f", .hostFn "sqrt")] = .ok ev :=
  ⟨c10_disallowed_functions_rejected_at_init.1 [("f", .hostFn "open")]
     ⟨("f", .hostFn "open"), List.mem_singleton.mpr rfl, by decide⟩,
   c10_disallowed_functions_rejected_at_init.2 [("f", .hostFn "sqrt")]
     (fun p hp => by rcases List.mem_singleton.mp hp with rfl; rfl)⟩

/-! ## C8: chained comparison -/

/-- Comparison operator kinds of the compare grammar that the default table
maps (the membership and identity kinds In, NotIn, Is and IsNot lie outside
the modeled fragment). -/

def isCmpKind : OpKind → Bool
  | .eq | .notEq | .gt | .lt | .gtE | .ltE => true
  | _ => false

theorem pyEq_ok_bool (a b v : Value) (h : pyEq a b = .ok v) :
    ∃ bb, v = .bool bb := by
  cases a <;> cases b <;> simp only [pyEq, Except.ok.injEq] at h <;>
    first
    | exact ⟨_, h.symm⟩
    | simp at h

theorem pyNotEq_ok_bool (a b v : Value) (h : pyNotEq a b = .ok v) :
    ∃ bb, v = .bool bb := by
  simp only [pyNotEq] at h
  rcases hE : pyEq a b with e | r
  · rw [hE] at h; cases h
  · rw [hE] at h
    obtain ⟨bb, rfl⟩ := pyEq_ok_bool a b r hE
    simp only [Except.ok.injEq] at h
    exact ⟨_, h.symm⟩

theorem pyLt_ok_bool (a b v : Value) (h : pyLt a b = .ok v) :
    ∃ bb, v = .bool bb := by
  cases a <;> cases b <;> simp only [pyLt, Except.ok.injEq] at h <;>
    first
    | exact ⟨_, h.symm⟩
    | simp at h

theorem pyGt_ok_bool (a b v : Value) (h : pyGt a b = .ok v) :
    ∃ bb, v = .bool bb := by
  cases a <;> cases b <;> simp only [pyGt, Except.ok.injEq] at h <;>
    first
    | exact ⟨_, h.symm⟩
    | simp at h

theorem pyLe_ok_bool (a b v : Value) (h : pyLe a b = .ok v) :
    ∃ bb, v = .bool bb := by
  cases a <;> cases b <;> simp only [pyLe, Except.ok.injEq] at h <;>
    first
    | exact ⟨_, h.symm⟩
    | simp at h

theorem pyGe_ok_bool (a b v : Value) (h : pyGe a b = .ok v) :
    ∃ bb, v = .bool bb := by
  cases a <;> cases b <;> simp only [pyGe, Except.ok.injEq] at h <;>
    first
    | exact ⟨_, h.symm⟩
    | simp at h

theorem compare_step_bool
    (ha : String → List Value → Except EvalError Value) (ev : Evaluator)
    (rest : List (OpKind × Expr))
    (ih : ∀ (right : Value) (b : Bool) (s s2 : EvalState) (w : Value),
        evalCompare ha ev right (.bool b) rest s = (.ok w, s2) →
        ∃ bb, w = .bool bb)
    (f : Value → Value → Except EvalError Value)
    (hfb : ∀ a b v, f a b = .ok v → ∃ bb, v = .bool bb)
    (right newRight : Value) (rs s2 : EvalState) (w : Value)
    (h : (match f right newRight with
          | .error e => (.error e, rs)
          | .ok res => evalCompare ha ev newRight res rest rs)
         = ((.ok w : Except EvalError Value), s2)) :
    ∃ bb, w = .bool bb := by
  rcases hF : f right newRight with e | res
  · rw [hF] at h
    simp at h
  · rw [hF] at h
    obtain ⟨bb, rfl⟩ := hfb right newRight res hF
    exact ih newRight bb rs s2 w h

theorem evalCompare_default_bool
    (ha : String → List Value → Except EvalError Value) (ev : Evaluator)
    (hops : ev.operators = DEFAULT_OPERATORS) :
    ∀ (pairs : List (OpKind × Expr)), (∀ p ∈ pairs, isCmpKind p.1 = true) →
    ∀ (right : Value) (b : Bool) (s s2 : EvalState) (w : Value),
      evalCompare ha ev right (.bool b) pairs s = (.ok w, s2) →
      ∃ bb, w = .bool bb := by
  intro pairs
  induction pairs with
  | nil =>
      intro _ right b s s2 w h
      simp only [evalCompare, Prod.mk.injEq, Except.ok.injEq] at h
      exact ⟨b, h.1.symm⟩
  | cons p rest ih =>
      obtain ⟨k, c⟩ := p
      intro hall right b s s2 w h
      have hk : isCmpKind k = true := hall (k, c) (List.mem_cons_self _ _)
      have hrest : ∀ q ∈ rest, isCmpKind q.1 = true :=
        fun q hq => hall q (List.mem_cons_of_mem _ hq)
      cases b with
      | false =>
          simp only [evalCompare, truthy, if_neg, Bool.false_eq_true,
            ite_false, Prod.mk.injEq, Except.ok.injEq] at h
          exact ⟨false, h.1.symm⟩
      | true =>
          simp only [evalCompare, truthy, ite_true] at h
          rcases hE : evalExpr ha ev c s with ⟨r1, rs⟩
          rw [hE] at h
          cases r1 with
          | error e => simp at h
          | ok newRight =>
              simp only at h
              rw [hops] at h
              cases k <;> simp only [isCmpKind] at hk <;>
                try exact absurd hk (by decide)
              all_goals
                simp only
                  [show opLookup DEFAULT_OPERATORS OpKind.eq
                      = Except.ok (OpFunc.binary pyEq) from rfl,
                   show opLookup DEFAULT_OPERATORS OpKind.notEq
                      = Except.ok (OpFunc.binary pyNotEq) from rfl,
                   show opLookup DEFAULT_OPERATORS OpKind.gt
                      = Except.ok (OpFunc.binary pyGt) from rfl,
                   show opLookup DEFAULT_OPERATORS OpKind.lt
                      = Except.ok (OpFunc.binary pyLt) from rfl,
                   show opLookup DEFAULT_OPERATORS OpKind.gtE
                      = Except.ok (OpFunc.binary pyGe) from rfl,
                   show opLookup DEFAULT_OPERATORS OpKind.ltE
                      = Except.ok (OpFunc.binary pyLe) from rfl] at h
              all_goals
                first
                | exact compare_step_bool ha ev rest (ih hrest) pyEq
                    pyEq_ok_bool right newRight rs s2 w h
                | exact compare_step_bool ha ev rest (ih hrest) pyNotEq
                    pyNotEq_ok_bool right newRight rs s2 w h
                | exact compare_step_bool ha ev rest (ih hrest) pyGt
                    pyGt_ok_bool right newRight rs s2 w h
                | exact compare_step_bool ha ev rest (ih hrest) pyLt
                    pyLt_ok_bool right newRight rs s2 w h
                | exact compare_step_bool ha ev rest (ih hrest) pyGe
                    pyGe_ok_bool right newRight rs s2 w h
                | exact compare_step_bool ha ev rest (ih hrest) pyLe
                    pyLe_ok_bool right newRight rs s2 w h

def proxyEval : Evaluator :=
  { defaultEval with
      operators := [(.lt, .binary (fun a b => .ok (.list [a, b])))] }

/--
C8: a chained comparison evaluates the leftmost operand and then the
comparators in left-to-right order, and the loop stops at the first falsy
running result without touching the remaining pairs — the result is that
falsy value and the state is unchanged, whatever the remaining comparators
are; a single non-chained comparison returns the bare operator result
unconverted, whatever function the table maps (so a host proxy value comes
back as-is); with the default operator table a chain of comparison kinds
that succeeds always yields a boolean.  Concretely, 1 less-than 2
less-than 3 less-than 4 is true, 1 less-than 2 greater-than 3 less-than 4
is false, the same failing chain ending in an undefined name still returns
false because the last comparator is never evaluated, and a custom
less-than operator returning a pair makes the single comparison return
that pair.
-/
theorem c8_compare_semantics :
    (∀ (ha : String → List Value → Except EvalError Value) (ev : Evaluator)
        (right v : Value) (pairs : List (OpKind × Expr)) (s : EvalState),
        truthy v = false →
        evalCompare ha ev right v pairs s = (.ok v, s)) ∧
    (∀ (ha : String → List Value → Except EvalError Value) (ev : Evaluator)
        (l c : Expr) (k : OpKind) (s s1 s2 : EvalState) (lv rv : Value)
        (f : Value → Value → Except EvalError Value),
        evalExpr ha ev l s = (.ok lv, s1) →
        evalExpr ha ev c s1 = (.ok rv, s2) →
        opLookup ev.operators k = .ok (.binary f) →
        evalExpr ha ev (.compare l [(k, c)]) s = (f lv rv, s2)) ∧
    (∀ (ha : String → List Value → Except EvalError Value) (ev : Evaluator),
        ev.operators = DEFAULT_OPERATORS →
        ∀ (l : Expr) (pairs : List (OpKind × Expr)) (s s2 : EvalState)
          (w : Value),
        (∀ p ∈ pairs, isCmpKind p.1 = true) →
        evalExpr ha ev (.compare l pairs) s = (.ok w, s2) →
        ∃ bb, w = .bool bb) ∧
    (evalExpr noHost defaultEval
        (.compare (.num 1) [(.lt, .num 2), (.lt, .num 3), (.lt, .num 4)])
        st0).1
      = .ok (.bool true) ∧
    (evalExpr noHost defaultEval
        (.compare (.num 1) [(.lt, .num 2), (.gt, .num 3), (.lt, .num 4)])
        st0).1
      = .ok (.bool false) ∧
    (evalExpr noHost defaultEval
        (.compare (.num 1) [(.lt, .num 2), (.gt, .num 3), (.lt, .name "missing")])
        st0).1
      = .ok (.bool false) ∧
    (evalExpr noHost proxyEval (.compare (.num 1) [(.lt, .num 2)]) st0).1
      = .ok (.list [.int 1, .int 2]) := by
  refine ⟨?_, ?_, ?_, ?_, ?_, ?_, ?_⟩
  · intro ha ev right v pairs s h
    cases pairs with
    | nil => simp [evalCompare]
    | cons p rest =>
        obtain ⟨k, c⟩ := p
        simp [evalCompare, h]
  · intro ha ev l c k s s1 s2 lv rv f hl hc hk
    simp only [evalExpr, hl]
    simp only [evalCompare, truthy, ite_true, hc]
    simp only [hk]
    rcases hF : f lv rv with e | res
    · simp [hF]
    · simp [hF, evalCompare]
  · intro ha ev hops l pairs s s2 w hall h
    simp only [evalExpr] at h
    rcases hE : evalExpr ha ev l s with ⟨r1, rs⟩
    rw [hE] at h
    cases r1 with
    | error e => simp at h
    | ok lv =>
        simp only at h
        exact evalCompare_default_bool ha ev hops pairs hall lv true rs s2 w h
  all_goals
    simp +ground [evalExpr, evalCompare, defaultEval, proxyEval]

/-- C8 witness: the short-circuit clause at a falsy running result, the
verbatim single-comparison clause at 1 less-than 2, and the
chain-reduces-to-boolean clause at the same chain. -/
theorem c8_compare_semantics_witness :
    evalCompare noHost defaultEval (.int 1) (.bool false)
      [(.lt, .num 99)] st0 = (.ok (.bool false), st0) ∧
    evalExpr noHost defaultEval (.compare (.num 1) [(.lt, .num 2)]) st0
      = (pyLt (.int 1) (.int 2), st0) ∧
    (∃ bb, Value.bool true = Value.bool bb) :=
  ⟨c8_compare_semantics.1 noHost defaultEval (.int 1) (.bool false)
     [(.lt, .num 99)] st0 rfl,
   c8_compare_semantics.2.1 noHost defaultEval (.num 1) (.num 2) .lt
     st0 st0 st0 (.int 1) (.int 2) pyLt
     (by simp [evalExpr]) (by simp [evalExpr]) rfl,
   c8_compare_semantics.2.2.1 noHost defaultEval rfl (.num 1)
     [(.lt, .num 2)] st0 st0 (.bool true) (by decide)
     (by simp +ground [evalExpr, evalCompare, defaultEval])⟩
